import Mathlib

/-!
Verification of the scheduling engine of the np-post-bot repository.

The definitions below are a shallow embedding of the scheduler code:
the standalone runner (`bot.sh` companion script: `isTaskExecutedToday`,
`recordExecution`, `executeTask`, the tick loop of `main`), the
`CronParser` and `SchedulerService` of the scheduler service module, and
the command handlers of `src/commands/scheduler-commands.ts`
(`addScheduleTask`, `enableScheduleTask`, `disableScheduleTask`,
`updateSchedulerConfig`).  File I/O is modelled by passing the stored
collections in and out explicitly; clock reads are modelled as explicit
parameters.
-/

namespace NpPostBot

/-- An entry of the execution-history file (`schedule-history.json`). -/
structure ExecutionRecord where
  taskId : String
  executionDate : String
  status : String
  details : String
deriving Repr, DecidableEq

/-- The `{ executions: [...] }` value held by the history file. -/
structure History where
  executions : List ExecutionRecord
deriving Repr, DecidableEq

/-- `startsWith` of JS strings, computed on the character lists so that it
evaluates on concrete inputs. -/
def strStartsWith (s p : String) : Bool :=
  p.data.isPrefixOf s.data

/-- `isTaskExecutedToday(history, taskId)` of the runner: some record has
the given task id and an `executionDate` starting with today's
`YYYY-MM-DD` string.  `today` models `new Date().toISOString().split('T')[0]`. -/
def isTaskExecutedToday (history : History) (today taskId : String) : Bool :=
  history.executions.any fun e =>
    e.taskId == taskId && strStartsWith e.executionDate today

/-- `recordExecution(history, taskId, status, details)` of the runner:
push a new record carrying the current ISO timestamp (`nowISO`), then, when
the collection exceeds 100 entries, keep only the last 100 (`slice(-100)`). -/
def recordExecution (history : History) (taskId status details nowISO : String) :
    History :=
  let execution : ExecutionRecord :=
    { taskId := taskId, executionDate := nowISO, status := status, details := details }
  let executions := history.executions ++ [execution]
  if executions.length > 100 then
    { executions := executions.drop (executions.length - 100) }
  else
    { executions := executions }

/-- One call of `recordExecution` described by its arguments. -/
structure RecordCall where
  taskId : String
  status : String
  details : String
  nowISO : String
deriving Repr, DecidableEq

/-- The record a call appends. -/
def RecordCall.toRecord (c : RecordCall) : ExecutionRecord :=
  { taskId := c.taskId, executionDate := c.nowISO, status := c.status,
    details := c.details }

/-- Replaying a sequence of `recordExecution` calls against a history. -/
def replayRecordCalls (calls : List RecordCall) (history : History) : History :=
  calls.foldl (fun h c => recordExecution h c.taskId c.status c.details c.nowISO) history

theorem recordExecution_executions (history : History)
    (taskId status details nowISO : String) :
    (recordExecution history taskId status details nowISO).executions =
      (history.executions ++
        [({ taskId := taskId, executionDate := nowISO, status := status,
            details := details } : ExecutionRecord)]).drop
        ((history.executions.length + 1) - 100) := by
  simp only [recordExecution]
  split
  next h =>
    simp only []
    congr 1
    simp
  next h =>
    simp only []
    have h1 : history.executions.length + 1 ≤ 100 := by
      simpa using h
    have h0 : history.executions.length + 1 - 100 = 0 := by omega
    rw [h0, List.drop_zero]

theorem replayRecordCalls_executions (calls : List RecordCall) :
    ∀ (history : History), history.executions.length ≤ 100 →
    (replayRecordCalls calls history).executions =
      (history.executions ++ calls.map RecordCall.toRecord).drop
        ((history.executions.length + calls.length) - 100) := by
  induction calls with
  | nil =>
    intro history hle
    have h0 : history.executions.length - 100 = 0 := by omega
    simp [replayRecordCalls, h0]
  | cons c cs ih =>
    intro history hle
    have hstep : (recordExecution history c.taskId c.status c.details c.nowISO).executions =
        (history.executions ++ [c.toRecord]).drop
          ((history.executions.length + 1) - 100) := by
      rw [recordExecution_executions]
      rfl
    have hlen : (recordExecution history c.taskId c.status c.details c.nowISO).executions.length ≤ 100 := by
      rw [hstep]
      simp
      omega
    have hrec : replayRecordCalls (c :: cs) history =
        replayRecordCalls cs (recordExecution history c.taskId c.status c.details c.nowISO) := by
      simp [replayRecordCalls]
    rw [hrec, ih _ hlen, hstep]
    rw [List.length_drop]
    set A := history.executions ++ [c.toRecord] with hA
    have hAlen : A.length = history.executions.length + 1 := by simp [hA]
    set k := history.executions.length + 1 - 100 with hk
    have hkle : k ≤ A.length := by omega
    rw [← List.drop_append_of_le_length hkle, List.drop_drop]
    simp only [List.map_cons, List.length_cons]
    have hassoc : history.executions ++ c.toRecord :: cs.map RecordCall.toRecord =
        A ++ cs.map RecordCall.toRecord := by simp [hA]
    rw [hassoc]
    congr 1
    omega

/-- C1: `wasExecutedToday` (the runner's `isTaskExecutedToday`) is true iff the
history holds a record with the given task id whose `executionDate` starts with
the current UTC date string; hence it is false while no such record exists, and
true immediately after `recordExecution` stamps a record with a timestamp of
the current UTC day, regardless of the recorded status. -/
theorem wasExecutedToday_iff_and_after_record
    (history : History) (today taskId status details nowISO : String)
    (hnow : strStartsWith nowISO today = true) :
    (isTaskExecutedToday history today taskId = true ↔
      ∃ e ∈ history.executions,
        e.taskId = taskId ∧ strStartsWith e.executionDate today = true) ∧
    isTaskExecutedToday (recordExecution history taskId status details nowISO)
      today taskId = true := by
  constructor
  · simp [isTaskExecutedToday, List.any_eq_true]
  · have hmem :
        ({ taskId := taskId, executionDate := nowISO, status := status,
           details := details } : ExecutionRecord) ∈
          (recordExecution history taskId status details nowISO).executions := by
      rw [recordExecution_executions]
      have hk : history.executions.length + 1 - 100 ≤ history.executions.length := by
        omega
      rw [List.drop_append_of_le_length hk]
      simp
    simp only [isTaskExecutedToday, List.any_eq_true]
    exact ⟨_, hmem, by simp [hnow]⟩

theorem wasExecutedToday_iff_and_after_record_witness :
    (isTaskExecutedToday { executions := [] } "2025-03-04" "task_1" = true ↔
      ∃ e ∈ ({ executions := [] } : History).executions,
        e.taskId = "task_1" ∧ strStartsWith e.executionDate "2025-03-04" = true) ∧
    isTaskExecutedToday
      (recordExecution { executions := [] } "task_1" "failure" "no output"
        "2025-03-04T09:00:00.000Z") "2025-03-04" "task_1" = true :=
  wasExecutedToday_iff_and_after_record { executions := [] } "2025-03-04"
    "task_1" "failure" "no output" "2025-03-04T09:00:00.000Z" (by decide)

/-- A run of 150 recording calls used to witness the history cap. -/
def callsOf150 : List RecordCall :=
  (List.range 150).map fun i =>
    { taskId := toString i, status := "success", details := "",
      nowISO := "2025-01-01T00:00:00.000Z" }

/-- C3: `recordExecution` appends the new record at the end of the history and
keeps only the most recent 100 entries, dropping the oldest-inserted first;
starting from an empty history, 150 calls leave exactly 100 records, namely
the 100 most recently appended ones in insertion order. -/
theorem recordExecution_appends_and_caps
    (history : History) (taskId status details nowISO : String)
    (calls : List RecordCall) (h150 : calls.length = 150) :
    (recordExecution history taskId status details nowISO).executions =
      (history.executions ++
        [({ taskId := taskId, executionDate := nowISO, status := status,
            details := details } : ExecutionRecord)]).drop
        ((history.executions.length + 1) - 100) ∧
    (replayRecordCalls calls { executions := [] }).executions =
      (calls.map RecordCall.toRecord).drop 50 ∧
    (replayRecordCalls calls { executions := [] }).executions.length = 100 := by
  have hemp : ({ executions := [] } : History).executions.length ≤ 100 := by simp
  have hrep := replayRecordCalls_executions calls { executions := [] } hemp
  simp only [List.nil_append, List.length_nil, Nat.zero_add, h150] at hrep
  refine ⟨recordExecution_executions history taskId status details nowISO, ?_, ?_⟩
  · simpa using hrep
  · rw [hrep]
    simp [h150]

theorem recordExecution_appends_and_caps_witness :
    (recordExecution { executions := [] } "task_9" "success" "ok"
        "2025-03-04T09:00:00.000Z").executions =
      ([] ++
        [({ taskId := "task_9", executionDate := "2025-03-04T09:00:00.000Z",
            status := "success", details := "ok" } : ExecutionRecord)]).drop
        ((([] : List ExecutionRecord).length + 1) - 100) ∧
    (replayRecordCalls callsOf150 { executions := [] }).executions =
      (callsOf150.map RecordCall.toRecord).drop 50 ∧
    (replayRecordCalls callsOf150 { executions := [] }).executions.length = 100 :=
  recordExecution_appends_and_caps { executions := [] } "task_9" "success" "ok"
    "2025-03-04T09:00:00.000Z" callsOf150 (by simp [callsOf150])

/-- `split` of JS strings with a one-character separator, computed on the
character list.  Like JS `split`, it keeps empty pieces: splitting `"a,b,"`
on `,` gives `["a", "b", ""]` and splitting `""` gives `[""]`. -/
def splitOnChar (c : Char) : List Char → List (List Char)
  | [] => [[]]
  | x :: xs =>
    let r := splitOnChar c xs
    if x == c then [] :: r
    else
      match r with
      | [] => [[x]]
      | y :: ys => (x :: y) :: ys

/-- Value of a list of decimal digit characters. -/
def digitsVal (l : List Char) : Nat :=
  l.foldl (fun a c => a * 10 + (c.toNat - 48)) 0

/-- JS `Number(s)` restricted to the shapes the scheduler feeds it: the empty
string evaluates to `0`, a string of decimal digits to its value, and anything
else to `NaN`, modelled as `none`.  (Signs, decimals and exponents never reach
these call sites.) -/
def jsNumber? (l : List Char) : Option Nat :=
  if l.isEmpty then some 0
  else if l.all Char.isDigit then some (digitsVal l)
  else none

/-- JS `parseInt(s)`: skip leading spaces, read an optional sign and then the
longest run of leading decimal digits; `NaN` (here `none`) when no digit
follows. -/
def jsParseInt (s : String) : Option Int :=
  let l := s.data.dropWhile Char.isWhitespace
  let signAndRest : Int × List Char :=
    match l with
    | '-' :: rest => (-1, rest)
    | '+' :: rest => (1, rest)
    | _ => (1, l)
  let ds := signAndRest.2.takeWhile Char.isDigit
  if ds.isEmpty then none
  else some (signAndRest.1 * (digitsVal ds : Int))

/-- Decimal digit character of a value below ten. -/
def digitChar10 (d : Nat) : Char :=
  match d with
  | 0 => '0' | 1 => '1' | 2 => '2' | 3 => '3' | 4 => '4'
  | 5 => '5' | 6 => '6' | 7 => '7' | 8 => '8' | 9 => '9'
  | _ => '?'

/-- Fuel-driven loop rendering a natural number in decimal, most significant
digit first; the fuel is always sufficient when started at `n + 1`. -/
def natToCharsGo : Nat → Nat → List Char → List Char
  | 0, _, acc => acc
  | fuel + 1, n, acc =>
    let acc := digitChar10 (n % 10) :: acc
    if n < 10 then acc else natToCharsGo fuel (n / 10) acc

/-- Decimal rendering of a natural number, modelling the JS number-to-string
conversion used in template literals. -/
def natToChars (n : Nat) : List Char :=
  natToCharsGo (n + 1) n []

/-- String form of `natToChars`. -/
def natToString (n : Nat) : String :=
  { data := natToChars n }

theorem digitChar10_isDigit (d : Nat) (h : d < 10) :
    (digitChar10 d).isDigit = true := by
  interval_cases d <;> decide

theorem natToCharsGo_mem (fuel : Nat) :
    ∀ (n : Nat) (acc : List Char) (c : Char), c ∈ natToCharsGo fuel n acc →
      c ∈ acc ∨ c.isDigit = true := by
  induction fuel with
  | zero => intro n acc c hc; exact Or.inl hc
  | succ fuel ih =>
    intro n acc c hc
    simp only [natToCharsGo] at hc
    split at hc
    · rcases List.mem_cons.mp hc with h | h
      · exact Or.inr (h ▸ digitChar10_isDigit _ (Nat.mod_lt _ (by omega)))
      · exact Or.inl h
    · rcases ih (n / 10) (digitChar10 (n % 10) :: acc) c hc with h | h
      · rcases List.mem_cons.mp h with h | h
        · exact Or.inr (h ▸ digitChar10_isDigit _ (Nat.mod_lt _ (by omega)))
        · exact Or.inl h
      · exact Or.inr h

theorem natToChars_isDigit (n : Nat) (c : Char) (hc : c ∈ natToChars n) :
    c.isDigit = true := by
  rcases natToCharsGo_mem (n + 1) n [] c hc with h | h
  · cases h
  · exact h

/-- A stored task definition (`ScheduleTask` of the scheduler commands and the
runner).  `contentCount` and `interval` are JS numbers produced by `parseInt`,
hence integers here. -/
structure ScheduleTask where
  id : String
  time : String
  community : String
  contentCount : Int
  interval : Int
  contentType : Option String
  enabled : Bool
  createdBy : String
  createdAt : String
deriving Repr, DecidableEq

/-- JS `s.includes(c)` for a one-character needle. -/
def strContainsChar (s : String) (c : Char) : Bool :=
  s.data.any (· == c)

/-- The per-post success line the runner pushes. -/
def successLine (i : Nat) : String :=
  "✅ 发布 #" ++ natToString (i + 1) ++ ": 成功"

/-- The per-post failure line the runner pushes, embedding
`error.message || '未知错误'`. -/
def failureLine (i : Nat) (msg : String) : String :=
  "❌ 发布 #" ++ natToString (i + 1) ++ ": 失败 - " ++
    (if msg == "" then "未知错误" else msg)

/-- Return value of `executeTask` in the runner. -/
structure ExecutionResult where
  success : Bool
  results : List String
deriving Repr, DecidableEq

/-- `executeTask(task)` of the runner: `task.contentCount` sequential publish
attempts, each individually try/caught; attempt `i` is the external
`execSync(publishCommand)` call, modelled by the oracle `publish` whose
`error` case carries the thrown `error.message`.  The inter-post waits only
suspend the loop and are elided.  Overall success is
`results.every(r => r.includes('✅'))`. -/
def executeTask (publish : Nat → Except String String) (task : ScheduleTask) :
    ExecutionResult :=
  let results := (List.range task.contentCount.toNat).map fun i =>
    match publish i with
    | .ok _ => successLine i
    | .error msg => failureLine i msg
  { success := results.all fun r => strContainsChar r '✅',
    results := results }

theorem successLine_has_check (i : Nat) :
    strContainsChar (successLine i) '✅' = true := by
  apply List.any_eq_true.mpr
  refine ⟨'✅', ?_, by simp⟩
  show '✅' ∈ (successLine i).data
  have hdata : (successLine i).data =
      ("✅ 发布 #".data ++ natToChars (i + 1)) ++ ": 成功".data := rfl
  rw [hdata]
  apply List.mem_append_left
  apply List.mem_append_left
  decide

theorem failureLine_no_check (i : Nat) (msg : String) (h : '✅' ∉ msg.data) :
    strContainsChar (failureLine i msg) '✅' = false := by
  apply List.any_eq_false.mpr
  intro c hc
  simp only [beq_iff_eq]
  intro hceq
  subst hceq
  have hdata : (failureLine i msg).data =
      (("❌ 发布 #".data ++ natToChars (i + 1)) ++ ": 失败 - ".data) ++
        (if msg == "" then "未知错误" else msg).data := rfl
  rw [hdata] at hc
  rcases List.mem_append.mp hc with h1 | h1
  · rcases List.mem_append.mp h1 with h2 | h2
    · rcases List.mem_append.mp h2 with h3 | h3
      · exact absurd h3 (by decide)
      · have := natToChars_isDigit (i + 1) _ h3
        exact absurd this (by decide)
    · exact absurd h2 (by decide)
  · by_cases hm : msg == ""
    · rw [if_pos hm] at h1
      exact absurd h1 (by decide)
    · rw [if_neg hm] at h1
      exact h h1

/-- A representative stored task used in concrete scenarios. -/
def demoTask : ScheduleTask :=
  { id := "task_demo", time := "08:30", community := "alpha",
    contentCount := 3, interval := 2, contentType := some "default",
    enabled := true, createdBy := "admin", createdAt := "2025-03-01T00:00:00.000Z" }

/-- A publish oracle for the claimed three-post scenario: post #2 (index 1)
throws, the others succeed. -/
def post2Fails : Nat → Except String String :=
  fun i => if i == 1 then .error "boom" else .ok "tx"

/-- C4, counterexample: the overall success flag is
`results.every(r => r.includes('✅'))`, and a failure line embeds the thrown
error message verbatim; a single failing post whose error message contains
the character `✅` therefore yields `success = true` even though the sole
attempt failed — the flag is not `true` only when every attempt succeeded. -/
theorem executeTask_check_mark_spoof :
    (executeTask (fun _ => .error "✅") { demoTask with contentCount := 1 }).results =
      ["❌ 发布 #1: 失败 - ✅"] ∧
    (executeTask (fun _ => .error "✅") { demoTask with contentCount := 1 }).success =
      true := by
  decide

/-- C4, amended: `executeTask` makes exactly `contentCount` attempts, each
failure is caught individually and rendered as a failure line at its position
while the remaining posts still run, and — provided no thrown error message
contains the character `✅` — the overall success flag is true iff every
individual attempt succeeded; in the three-post scenario with post #2
throwing, the result is `success = false` with three outcome lines in which
posts #1 and #3 were both attempted and succeeded. -/
theorem executeTask_per_post_accounting
    (publish : Nat → Except String String) (task : ScheduleTask)
    (hclean : ∀ i msg, publish i = .error msg → '✅' ∉ msg.data) :
    (executeTask publish task).results.length = task.contentCount.toNat ∧
    (∀ i, i < task.contentCount.toNat →
      (executeTask publish task).results.getD i "" =
        match publish i with
        | .ok _ => successLine i
        | .error msg => failureLine i msg) ∧
    ((executeTask publish task).success = true ↔
      ∀ i, i < task.contentCount.toNat → ∃ o, publish i = .ok o) ∧
    (executeTask post2Fails demoTask).success = false ∧
    (executeTask post2Fails demoTask).results =
      [successLine 0, failureLine 1 "boom", successLine 2] := by
  refine ⟨by simp [executeTask], ?_, ?_, by decide, by decide⟩
  · intro i hi
    simp [executeTask, List.getD_eq_getElem?_getD, List.getElem?_map,
      List.getElem?_range, hi]
  · constructor
    · intro hs i hi
      cases hp : publish i with
      | ok o => exact ⟨o, rfl⟩
      | error msg =>
        exfalso
        have hmem : failureLine i msg ∈ (executeTask publish task).results := by
          apply List.mem_map.mpr
          exact ⟨i, List.mem_range.mpr hi, by rw [hp]⟩
        have hall := List.all_eq_true.mp hs _ hmem
        rw [failureLine_no_check i msg (hclean i msg hp)] at hall
        exact Bool.false_ne_true hall
    · intro h
      apply List.all_eq_true.mpr
      intro r hr
      rcases List.mem_map.mp hr with ⟨i, hi, hf⟩
      rcases h i (List.mem_range.mp hi) with ⟨o, ho⟩
      rw [← hf, ho]
      exact successLine_has_check i

theorem executeTask_per_post_accounting_witness :
    (executeTask post2Fails demoTask).results.length =
      demoTask.contentCount.toNat ∧
    ((executeTask post2Fails demoTask).success = true ↔
      ∀ i, i < demoTask.contentCount.toNat → ∃ o, post2Fails i = .ok o) :=
  have h := executeTask_per_post_accounting post2Fails demoTask (by
    intro i msg hmsg
    by_cases hi : i = 1
    · subst hi
      simp [post2Fails] at hmsg
      subst hmsg
      decide
    · simp [post2Fails, hi] at hmsg)
  ⟨h.1, h.2.2.1⟩

/-- The per-task time-window test of the runner's `main`:
`[hour, minute] = task.time.split(':').map(Number)` followed by
`hour === currentHour && Math.abs(minute - currentMinute) <= 5`.  A time
whose components do not parse (JS `NaN`) never matches. -/
def taskTimeMatches (time : String) (currentHour currentMinute : Nat) : Bool :=
  match (splitOnChar ':' time.data).map jsNumber? with
  | some hour :: some minute :: _ =>
    hour == currentHour &&
      decide (((minute : Int) - (currentMinute : Int)).natAbs ≤ 5)
  | _ => false

/-- One task's treatment inside the runner's tick loop: a disabled task is
skipped outright; an enabled task in the time window that already ran today
is skipped; otherwise the task is executed (the `executeTask` call is the
oracle `outcome`, giving the flag and the joined details) and the outcome is
recorded. -/
def tickStep (outcome : ScheduleTask → Bool × String) (today nowISO : String)
    (currentHour currentMinute : Nat) (history : History) (task : ScheduleTask) :
    History × Bool :=
  if !task.enabled then (history, false)
  else if taskTimeMatches task.time currentHour currentMinute then
    if isTaskExecutedToday history today task.id then (history, false)
    else
      let r := outcome task
      (recordExecution history task.id (if r.1 then "success" else "failure")
        r.2 nowISO, true)
  else (history, false)

/-- The runner's whole tick: fold `tickStep` over the stored tasks, threading
the history and counting executed tasks. -/
def runTick (outcome : ScheduleTask → Bool × String) (today nowISO : String)
    (currentHour currentMinute : Nat) (tasks : List ScheduleTask)
    (history : History) : History × Nat :=
  tasks.foldl
    (fun acc task =>
      let s := tickStep outcome today nowISO currentHour currentMinute acc.1 task
      (s.1, acc.2 + (if s.2 then 1 else 0)))
    (history, 0)

/-- C2: a stored task is dispatched by a tick iff it is enabled, its
configured hour equals the current hour, its configured minute differs from
the current minute by at most 5, and it has not yet been executed today; a
disabled task is never dispatched, even at its exact trigger time, and the
history is left without any new record for it. -/
theorem tick_dispatch_iff (outcome : ScheduleTask → Bool × String)
    (today nowISO : String) (currentHour currentMinute : Nat)
    (history : History) (task : ScheduleTask) (hour minute : Nat)
    (rest : List (Option Nat))
    (hparse : (splitOnChar ':' task.time.data).map jsNumber? =
      some hour :: some minute :: rest) :
    ((tickStep outcome today nowISO currentHour currentMinute history task).2 =
        true ↔
      task.enabled = true ∧ hour = currentHour ∧
        ((minute : Int) - (currentMinute : Int)).natAbs ≤ 5 ∧
        isTaskExecutedToday history today task.id = false) ∧
    (task.enabled = false →
      tickStep outcome today nowISO currentHour currentMinute history task =
        (history, false)) := by
  have hm : taskTimeMatches task.time currentHour currentMinute =
      (hour == currentHour &&
        decide (((minute : Int) - (currentMinute : Int)).natAbs ≤ 5)) := by
    unfold taskTimeMatches
    rw [hparse]
  constructor
  · unfold tickStep
    rw [hm]
    cases he : task.enabled
    · simp
    · by_cases hh : hour = currentHour
      · by_cases hd : ((minute : Int) - (currentMinute : Int)).natAbs ≤ 5
        · cases hex : isTaskExecutedToday history today task.id
          · simp [hh, hd, hex]
          · simp [hh, hd, hex]
        · simp [hh, hd]
      · simp [hh]
  · intro he
    unfold tickStep
    rw [he]
    simp

theorem tick_dispatch_iff_witness :
    (tickStep (fun _ => (true, "posted")) "2025-03-04"
        "2025-03-04T08:33:00.000Z" 8 33 { executions := [] } demoTask).2 =
      true :=
  ((tick_dispatch_iff (fun _ => (true, "posted")) "2025-03-04"
      "2025-03-04T08:33:00.000Z" 8 33 { executions := [] } demoTask 8 30 []
      (by decide)).1).mpr (by decide)

namespace CronParser

/-- `CronParser.matches` on a comma-free component, in the source's order of
checks: `*`, then a range (`-`), then a step (`/`), then a bare number.  The
source's single `matches` recurses once through comma lists; the pieces of a
comma split are comma-free, so the recursion is split into `matchesField`
below and this comma-free case, which re-checks `*` first exactly as the
recursive call does.  JS quirks preserved: the range takes the first two
pieces of the `-` split and fails on `NaN`; the step ignores everything
before the `/` and a zero step never matches (`x % 0` is `NaN`); `includes`
is the `any` over characters. -/
def matchesAtom (pattern : List Char) (value : Nat) : Bool :=
  if pattern == ['*'] then true
  else if pattern.any (· == '-') then
    match (splitOnChar '-' pattern).map jsNumber? with
    | some a :: some b :: _ => decide (a ≤ value) && decide (value ≤ b)
    | _ => false
  else if pattern.any (· == '/') then
    match (splitOnChar '/' pattern).drop 1 with
    | s :: _ =>
      match jsNumber? s with
      | some step => if step == 0 then false else value % step == 0
      | none => false
    | [] => false
  else
    match jsNumber? pattern with
    | some k => k == value
    | none => false

/-- `CronParser.matches`: `*` matches anything; a comma list delegates each
piece to the comma-free matcher; anything else is decided by the comma-free
matcher directly. -/
def matchesField (pattern : List Char) (value : Nat) : Bool :=
  if pattern == ['*'] then true
  else if pattern.any (· == ',') then
    (splitOnChar ',' pattern).any fun part => matchesAtom part value
  else matchesAtom pattern value

/-- Broken-down wall-clock time as `isTimeMatching` reads it from
`new Date()`: `getMinutes()`, `getHours()`, `getDate()`, `getMonth() + 1`,
and `getDay()` with 0 = Sunday .. 6 = Saturday. -/
structure CronTime where
  minute : Nat
  hour : Nat
  dayOfMonth : Nat
  month : Nat
  dayOfWeekRaw : Nat
deriving Repr, DecidableEq

/-- `CronParser.isTimeMatching`: reject an empty expression, split on single
spaces, reject unless exactly 5 components, remap Sunday through
`now.getDay() || 7`, and require all five fields to match. -/
def isTimeMatching (cronExpression : String) (now : CronTime) : Bool :=
  if cronExpression == "" then false
  else
    let parts := splitOnChar ' ' cronExpression.data
    if parts.length != 5 then false
    else
      let dayOfWeek := if now.dayOfWeekRaw == 0 then 7 else now.dayOfWeekRaw
      matchesField (parts.getD 0 []) now.minute &&
      (matchesField (parts.getD 1 []) now.hour &&
      (matchesField (parts.getD 2 []) now.dayOfMonth &&
      (matchesField (parts.getD 3 []) now.month &&
      matchesField (parts.getD 4 []) dayOfWeek)))

end CronParser

theorem splitOnChar_of_not_mem (c : Char) (l : List Char) (h : c ∉ l) :
    splitOnChar c l = [l] := by
  induction l with
  | nil => rfl
  | cons x xs ih =>
    have hx : (x == c) = false := by
      apply beq_eq_false_iff_ne.mpr
      rintro rfl
      exact h (List.mem_cons_self x xs)
    have hxs := ih fun hc => h (List.mem_cons_of_mem x hc)
    simp only [splitOnChar, hx, hxs]
    simp

theorem splitOnChar_append (c : Char) (xs ys : List Char) (h : c ∉ xs) :
    splitOnChar c (xs ++ c :: ys) = xs :: splitOnChar c ys := by
  induction xs with
  | nil => simp [splitOnChar]
  | cons a as ih =>
    have ha : (a == c) = false := by
      apply beq_eq_false_iff_ne.mpr
      rintro rfl
      exact h (List.mem_cons_self a as)
    have has := ih fun hc => h (List.mem_cons_of_mem a hc)
    simp only [List.cons_append, splitOnChar, List.append_eq]
    rw [has]
    simp [ha]

theorem digit_list_no_symbol (ds : List Char) (hd : ds.all Char.isDigit = true)
    (c : Char) (hc : c.isDigit = false) : ds.any (· == c) = false := by
  apply List.any_eq_false.mpr
  intro x hx
  simp only [beq_iff_eq]
  rintro rfl
  rw [List.all_eq_true.mp hd x hx] at hc
  exact absurd hc (by decide)

theorem digit_list_not_mem (ds : List Char) (hd : ds.all Char.isDigit = true)
    (c : Char) (hc : c.isDigit = false) : c ∉ ds := by
  intro hmem
  rw [List.all_eq_true.mp hd c hmem] at hc
  exact absurd hc (by decide)

theorem digit_list_ne_star (ds : List Char) (hd : ds.all Char.isDigit = true) :
    (ds == ['*']) = false := by
  apply beq_eq_false_iff_ne.mpr
  rintro rfl
  simp at hd

theorem jsNumber_of_digits (ds : List Char) (hd : ds.all Char.isDigit = true)
    (h0 : ds ≠ []) : jsNumber? ds = some (digitsVal ds) := by
  have he : ds.isEmpty = false := by
    cases ds with
    | nil => exact absurd rfl h0
    | cons a as => rfl
  simp [jsNumber?, he, hd]

theorem matchesAtom_bare (ds : List Char) (n v : Nat)
    (hd : ds.all Char.isDigit = true) (h0 : ds ≠ [])
    (hval : digitsVal ds = n) :
    CronParser.matchesAtom ds v = (n == v) := by
  unfold CronParser.matchesAtom
  rw [digit_list_ne_star ds hd, digit_list_no_symbol ds hd '-' (by decide),
    digit_list_no_symbol ds hd '/' (by decide),
    jsNumber_of_digits ds hd h0, hval]
  simp

theorem matchesAtom_range (ds es : List Char) (a b v : Nat)
    (hd : ds.all Char.isDigit = true) (hd0 : ds ≠ [])
    (he : es.all Char.isDigit = true) (he0 : es ≠ [])
    (hda : digitsVal ds = a) (heb : digitsVal es = b) :
    CronParser.matchesAtom (ds ++ '-' :: es) v =
      (decide (a ≤ v) && decide (v ≤ b)) := by
  have hstar : ((ds ++ '-' :: es) == ['*']) = false := by
    apply beq_eq_false_iff_ne.mpr
    intro hq
    have hlen := congrArg List.length hq
    simp [List.length_append] at hlen
    exact hd0 (List.length_eq_zero.mp (by omega))
  have hdash : ((ds ++ '-' :: es).any (· == '-')) = true := by
    apply List.any_eq_true.mpr
    exact ⟨'-', List.mem_append_right _ (List.mem_cons_self _ _), by simp⟩
  unfold CronParser.matchesAtom
  rw [hstar, hdash]
  rw [splitOnChar_append '-' ds es (digit_list_not_mem ds hd '-' (by decide)),
    splitOnChar_of_not_mem '-' es (digit_list_not_mem es he '-' (by decide))]
  simp only [List.map_cons, List.map_nil]
  rw [jsNumber_of_digits ds hd hd0, jsNumber_of_digits es he he0, hda, heb]
  simp

theorem matchesAtom_step (ds : List Char) (s v : Nat)
    (hd : ds.all Char.isDigit = true) (hd0 : ds ≠ [])
    (hval : digitsVal ds = s) (hs : s ≠ 0) :
    CronParser.matchesAtom ('*' :: '/' :: ds) v = (v % s == 0) := by
  have hstar : (('*' :: '/' :: ds) == ['*']) = false := by
    apply beq_eq_false_iff_ne.mpr
    intro hq
    have hlen := congrArg List.length hq
    simp at hlen
  have hdash : (('*' :: '/' :: ds).any (· == '-')) = false := by
    simp only [List.any_cons]
    rw [digit_list_no_symbol ds hd '-' (by decide)]
    decide
  have hslash : (('*' :: '/' :: ds).any (· == '/')) = true := by
    simp
  have hsplit : splitOnChar '/' ('*' :: '/' :: ds) =
      ['*'] :: splitOnChar '/' ds := by
    have hq : ('*' :: '/' :: ds) = ['*'] ++ '/' :: ds := rfl
    rw [hq, splitOnChar_append '/' ['*'] ds (by decide)]
  have hns := splitOnChar_of_not_mem '/' ds (digit_list_not_mem ds hd '/' (by decide))
  have hj := jsNumber_of_digits ds hd hd0
  have hz : (s == 0) = false := by simpa using hs
  simp only [CronParser.matchesAtom, hstar, hdash, hslash, hsplit, hns,
    Bool.false_eq_true, if_false, if_true, List.drop_succ_cons, List.drop_zero,
    hj, hval]
  simp [hz]

theorem matchesField_comma (pattern : List Char) (v : Nat)
    (h : pattern.any (· == ',') = true) :
    CronParser.matchesField pattern v =
      (splitOnChar ',' pattern).any fun part =>
        CronParser.matchesAtom part v := by
  have hstar : (pattern == ['*']) = false := by
    apply beq_eq_false_iff_ne.mpr
    rintro rfl
    simp at h
  unfold CronParser.matchesField
  rw [hstar, h]
  simp

/-- C5: per-field semantics of the cron matcher — `*` matches every value, a
comma list matches when some piece matches, a digit-written range `a-b`
matches exactly the values between `a` and `b`, a step `*/s` with positive
`s` matches exactly the values divisible by `s`, and a bare digit-written
integer matches exactly that value; consequently the full expression
`"*/5 * * * *"` matches a time iff its minute lies in {0, 5, ..., 55}. -/
theorem cron_field_semantics :
    (∀ v, CronParser.matchesField ['*'] v = true) ∧
    (∀ pattern v, pattern.any (· == ',') = true →
      (CronParser.matchesField pattern v = true ↔
        ∃ part ∈ splitOnChar ',' pattern,
          CronParser.matchesAtom part v = true)) ∧
    (∀ ds es a b v, ds.all Char.isDigit = true → ds ≠ [] →
      es.all Char.isDigit = true → es ≠ [] →
      digitsVal ds = a → digitsVal es = b →
      (CronParser.matchesAtom (ds ++ '-' :: es) v = true ↔ a ≤ v ∧ v ≤ b)) ∧
    (∀ ds s v, ds.all Char.isDigit = true → ds ≠ [] → digitsVal ds = s →
      s ≠ 0 →
      (CronParser.matchesAtom ('*' :: '/' :: ds) v = true ↔ v % s = 0)) ∧
    (∀ ds n v, ds.all Char.isDigit = true → ds ≠ [] → digitsVal ds = n →
      (CronParser.matchesAtom ds v = true ↔ n = v)) ∧
    (∀ t : CronParser.CronTime, t.minute < 60 →
      (CronParser.isTimeMatching "*/5 * * * *" t = true ↔
        t.minute ∈ [0, 5, 10, 15, 20, 25, 30, 35, 40, 45, 50, 55])) := by
  refine ⟨fun v => rfl, ?_, ?_, ?_, ?_, ?_⟩
  · intro pattern v h
    rw [matchesField_comma pattern v h, List.any_eq_true]
  · intro ds es a b v hd hd0 he he0 hda heb
    rw [matchesAtom_range ds es a b v hd hd0 he he0 hda heb]
    simp
  · intro ds s v hd hd0 hval hs
    rw [matchesAtom_step ds s v hd hd0 hval hs]
    simp
  · intro ds n v hd hd0 hval
    rw [matchesAtom_bare ds n v hd hd0 hval]
    simp
  · intro t ht
    have hshape : CronParser.isTimeMatching "*/5 * * * *" t =
        ((t.minute % 5 == 0) && true) := rfl
    rw [hshape, Bool.and_true, beq_iff_eq]
    simp only [List.mem_cons, List.not_mem_nil, or_false]
    omega

theorem cron_field_semantics_witness :
    CronParser.matchesAtom ("10-20".data) 15 = true ∧
    CronParser.matchesAtom ("*/5".data) 35 = true ∧
    CronParser.isTimeMatching "*/5 * * * *"
      { minute := 25, hour := 9, dayOfMonth := 15, month := 3,
        dayOfWeekRaw := 2 } = true :=
  ⟨(cron_field_semantics.2.2.1 "10".data "20".data 10 20 15 (by decide)
      (by decide) (by decide) (by decide) (by decide) (by decide)).mpr
      (by decide),
   (cron_field_semantics.2.2.2.1 "5".data 5 35 (by decide) (by decide)
      (by decide) (by decide)).mpr (by decide),
   (cron_field_semantics.2.2.2.2.2
      { minute := 25, hour := 9, dayOfMonth := 15, month := 3,
        dayOfWeekRaw := 2 } (by decide)).mpr (by decide)⟩

/-- C6: the day-of-week value the matcher tests against the fifth field is
`getDay() || 7`, hence always in 1..7 with a wall-clock Sunday presented as
7 and never 0; a day-of-week field written as the bare integer `0` matches
no time at all, while `7` matches exactly the Sundays. -/
theorem cron_dayOfWeek_sunday_is_seven (t : CronParser.CronTime)
    (h : t.dayOfWeekRaw < 7) :
    (1 ≤ (if t.dayOfWeekRaw == 0 then 7 else t.dayOfWeekRaw) ∧
      (if t.dayOfWeekRaw == 0 then 7 else t.dayOfWeekRaw) ≤ 7) ∧
    CronParser.isTimeMatching "* * * * 0" t = false ∧
    (CronParser.isTimeMatching "* * * * 7" t = true ↔
      t.dayOfWeekRaw = 0) := by
  have h0 : CronParser.isTimeMatching "* * * * 0" t =
      (0 == (if t.dayOfWeekRaw == 0 then 7 else t.dayOfWeekRaw)) := rfl
  have h7 : CronParser.isTimeMatching "* * * * 7" t =
      (7 == (if t.dayOfWeekRaw == 0 then 7 else t.dayOfWeekRaw)) := rfl
  refine ⟨?_, ?_, ?_⟩
  · by_cases hz : t.dayOfWeekRaw = 0
    · simp [hz]
    · have hb : (t.dayOfWeekRaw == 0) = false := by simpa using hz
      simp only [hb, Bool.false_eq_true, if_false]
      omega
  · rw [h0]
    by_cases hz : t.dayOfWeekRaw = 0
    · simp [hz]
    · have hb : (t.dayOfWeekRaw == 0) = false := by simpa using hz
      simp only [hb, Bool.false_eq_true, if_false]
      simp only [beq_eq_false_iff_ne]
      omega
  · rw [h7]
    by_cases hz : t.dayOfWeekRaw = 0
    · simp [hz]
    · have hb : (t.dayOfWeekRaw == 0) = false := by simpa using hz
      simp only [hb, Bool.false_eq_true, if_false, beq_iff_eq]
      omega

theorem cron_dayOfWeek_sunday_is_seven_witness :
    CronParser.isTimeMatching "* * * * 0"
      { minute := 0, hour := 0, dayOfMonth := 5, month := 1,
        dayOfWeekRaw := 0 } = false ∧
    (CronParser.isTimeMatching "* * * * 7"
      { minute := 0, hour := 0, dayOfMonth := 5, month := 1,
        dayOfWeekRaw := 0 } = true ↔
      ({ minute := 0, hour := 0, dayOfMonth := 5, month := 1,
         dayOfWeekRaw := 0 } : CronParser.CronTime).dayOfWeekRaw = 0) :=
  have h := cron_dayOfWeek_sunday_is_seven
    { minute := 0, hour := 0, dayOfMonth := 5, month := 1,
      dayOfWeekRaw := 0 } (by decide)
  ⟨h.2.1, h.2.2⟩

/-- The HH:MM validation of `addScheduleTask`, the regex
`^([01]\d|2[0-3]):([0-5]\d)$` decided characterwise. -/
def isValidTimeFormat (time : String) : Bool :=
  match time.data with
  | [h1, h2, c, m1, m2] =>
    (((h1 == '0' || h1 == '1') && h2.isDigit) ||
      (h1 == '2' && (h2 == '0' || h2 == '1' || h2 == '2' || h2 == '3'))) &&
    c == ':' &&
    (m1 == '0' || m1 == '1' || m1 == '2' || m1 == '3' || m1 == '4' ||
      m1 == '5') &&
    m2.isDigit
  | _ => false

/-- JS `x || 'default'` defaulting: `undefined` (`none`) and the empty string
fall back to the default. -/
def jsOrDefault (s : Option String) (d : String) : String :=
  match s with
  | some t => if t == "" then d else t
  | none => d

/-- Arguments of `scheduler.add_task`.  An absent argument is the empty
string for `time`/`community`/`count`/`interval` (where JS `undefined` fails
the same checks) and `none` for `type`. -/
structure AddTaskArgs where
  time : String
  community : String
  count : String
  interval : String
  type : Option String
deriving Repr, DecidableEq

/-- The `{success, message}` part of every command handler's result. -/
structure CommandResult where
  success : Bool
  message : String
deriving Repr, DecidableEq

/-- The task record `addScheduleTask` constructs once validation passed. -/
def mkNewTask (args : AddTaskArgs) (taskId createdBy createdAt : String) :
    ScheduleTask :=
  { id := taskId, time := args.time, community := args.community,
    contentCount := (jsParseInt args.count).getD 0,
    interval := (jsParseInt args.interval).getD 0,
    contentType := some (jsOrDefault args.type "default"),
    enabled := true, createdBy := createdBy, createdAt := createdAt }

/-- `addScheduleTask`: validate the time format, the community, and the two
parsed integers, in source order; only afterwards generate an id and append
the new task.  The generated id and the clock/user reads are explicit
parameters, and the saved list is returned with the result. -/
def addScheduleTask (args : AddTaskArgs) (tasks : List ScheduleTask)
    (taskId createdBy createdAt : String) :
    CommandResult × List ScheduleTask :=
  if !isValidTimeFormat args.time then
    ({ success := false, message := "时间格式不正确，应为HH:MM (例如 08:30)" },
     tasks)
  else if args.community == "" then
    ({ success := false, message := "请指定目标社区" }, tasks)
  else if (match jsParseInt args.count with
           | none => true
           | some c => decide (c < 1)) then
    ({ success := false, message := "发布数量必须是大于0的整数" }, tasks)
  else if (match jsParseInt args.interval with
           | none => true
           | some k => decide (k < 1)) then
    ({ success := false, message := "间隔时间必须是大于0的整数(分钟)" }, tasks)
  else
    ({ success := true, message := "已添加定时任务！" },
     tasks ++ [mkNewTask args taskId createdBy createdAt])

/-- The conjunction of the four validation checks of `addScheduleTask`. -/
def addTaskArgsValid (args : AddTaskArgs) : Bool :=
  isValidTimeFormat args.time && args.community != "" &&
  (match jsParseInt args.count with
   | some c => decide (1 ≤ c)
   | none => false) &&
  (match jsParseInt args.interval with
   | some k => decide (1 ≤ k)
   | none => false)

/-- C7: `scheduler.add_task` rejects with `{success:false}` and leaves the
stored task list unchanged whenever the time fails the HH:MM pattern (such
as "25:00"), the community is empty, or the parsed count or interval is not
a positive integer; when every validation passes (such as time "08:30") it
succeeds and appends exactly the created task, which is enabled. -/
theorem addScheduleTask_validates_before_append (args : AddTaskArgs)
    (tasks : List ScheduleTask) (taskId createdBy createdAt : String) :
    (addTaskArgsValid args = false →
      (addScheduleTask args tasks taskId createdBy createdAt).1.success =
        false ∧
      (addScheduleTask args tasks taskId createdBy createdAt).2 = tasks) ∧
    (addTaskArgsValid args = true →
      (addScheduleTask args tasks taskId createdBy createdAt).1.success =
        true ∧
      (addScheduleTask args tasks taskId createdBy createdAt).2 =
        tasks ++ [mkNewTask args taskId createdBy createdAt] ∧
      (mkNewTask args taskId createdBy createdAt).enabled = true) ∧
    isValidTimeFormat "25:00" = false ∧
    isValidTimeFormat "08:30" = true := by
  refine ⟨?_, ?_, by decide, by decide⟩
  · intro hinvalid
    by_cases h1 : isValidTimeFormat args.time = true
    · by_cases h2 : args.community = ""
      · have h2b : (args.community == "") = true := by simp [h2]
        simp [addScheduleTask, h1, h2b]
      · have h2b : (args.community == "") = false := by simp [h2]
        cases hc : jsParseInt args.count with
        | none => simp [addScheduleTask, h1, h2b, hc]
        | some c =>
          by_cases h3 : c < 1
          · simp [addScheduleTask, h1, h2b, hc, h3]
          · cases hi : jsParseInt args.interval with
            | none => simp [addScheduleTask, h1, h2b, hc, h3, hi]
            | some k =>
              by_cases h4 : k < 1
              · simp [addScheduleTask, h1, h2b, hc, h3, hi, h4]
              · exfalso
                simp [addTaskArgsValid, h1, h2, hc, hi] at hinvalid
                omega
    · have h1b : isValidTimeFormat args.time = false := by
        simpa using h1
      simp [addScheduleTask, h1b]
  · intro hvalid
    simp only [addTaskArgsValid, Bool.and_eq_true] at hvalid
    obtain ⟨⟨⟨h1, h2⟩, h3⟩, h4⟩ := hvalid
    have h2b : (args.community == "") = false := by
      simpa [bne] using h2
    cases hc : jsParseInt args.count with
    | none => rw [hc] at h3; simp at h3
    | some c =>
      rw [hc] at h3
      simp at h3
      cases hi : jsParseInt args.interval with
      | none => rw [hi] at h4; simp at h4
      | some k =>
        rw [hi] at h4
        simp at h4
        have hcc : (match jsParseInt args.count with
            | none => true
            | some c => decide (c < 1)) = false := by
          rw [hc]
          simp
          omega
        have hii : (match jsParseInt args.interval with
            | none => true
            | some k => decide (k < 1)) = false := by
          rw [hi]
          simp
          omega
        simp [addScheduleTask, h1, h2b, hcc, hii, mkNewTask]

theorem addScheduleTask_validates_before_append_witness :
    (addScheduleTask
        { time := "08:30", community := "alpha", count := "2",
          interval := "10", type := none }
        [] "task_1" "admin" "2025-03-04T00:00:00.000Z").1.success = true ∧
    (addScheduleTask
        { time := "08:30", community := "alpha", count := "2",
          interval := "10", type := none }
        [] "task_1" "admin" "2025-03-04T00:00:00.000Z").2 =
      [] ++ [mkNewTask
        { time := "08:30", community := "alpha", count := "2",
          interval := "10", type := none } "task_1" "admin"
        "2025-03-04T00:00:00.000Z"] ∧
    (mkNewTask
        { time := "08:30", community := "alpha", count := "2",
          interval := "10", type := none } "task_1" "admin"
        "2025-03-04T00:00:00.000Z").enabled = true :=
  (addScheduleTask_validates_before_append
      { time := "08:30", community := "alpha", count := "2",
        interval := "10", type := none }
      [] "task_1" "admin" "2025-03-04T00:00:00.000Z").2.1 (by decide)

/-- The in-place mutation `task.enabled = v` after `tasks.find(...)` in the
enable/disable handlers: only the first task carrying the id changes. -/
def setEnabledFirst : List ScheduleTask → String → Bool → List ScheduleTask
  | [], _, _ => []
  | t :: rest, taskId, v =>
    if t.id == taskId then { t with enabled := v } :: rest
    else t :: setEnabledFirst rest taskId v

/-- Outcome of `enableScheduleTask`/`disableScheduleTask`: the command
result, the resulting stored list, and whether `saveTasks` rewrote the
tasks file. -/
structure TaskToggleOutcome where
  result : CommandResult
  tasks : List ScheduleTask
  wroteFile : Bool
deriving Repr, DecidableEq

/-- `enableScheduleTask`: reject a missing id, reject an unknown id, answer
"already enabled" without saving when the flag is already set, otherwise set
the flag and save the whole list. -/
def enableScheduleTask (taskId : String) (tasks : List ScheduleTask) :
    TaskToggleOutcome :=
  if taskId == "" then
    { result := { success := false, message := "请提供要启用的任务ID" },
      tasks := tasks, wroteFile := false }
  else
    match tasks.find? (fun t => t.id == taskId) with
    | none =>
      { result :=
          { success := false,
            message := "未找到ID为 " ++ taskId ++ " 的任务" },
        tasks := tasks, wroteFile := false }
    | some task =>
      if task.enabled then
        { result :=
            { success := true,
              message := "任务已经处于启用状态:\n\nID: " ++ taskId ++
              "\n时间: " ++ task.time ++ "\n社区: " ++ task.community },
          tasks := tasks, wroteFile := false }
      else
        { result :=
            { success := true,
              message := "已启用定时任务:\n\nID: " ++ taskId ++
              "\n时间: " ++ task.time ++ "\n社区: " ++ task.community },
          tasks := setEnabledFirst tasks taskId true, wroteFile := true }

/-- `disableScheduleTask`, the mirror image of `enableScheduleTask`. -/
def disableScheduleTask (taskId : String) (tasks : List ScheduleTask) :
    TaskToggleOutcome :=
  if taskId == "" then
    { result := { success := false, message := "请提供要禁用的任务ID" },
      tasks := tasks, wroteFile := false }
  else
    match tasks.find? (fun t => t.id == taskId) with
    | none =>
      { result :=
          { success := false,
            message := "未找到ID为 " ++ taskId ++ " 的任务" },
        tasks := tasks, wroteFile := false }
    | some task =>
      if !task.enabled then
        { result :=
            { success := true,
              message := "任务已经处于禁用状态:\n\nID: " ++ taskId ++
              "\n时间: " ++ task.time ++ "\n社区: " ++ task.community },
          tasks := tasks, wroteFile := false }
      else
        { result :=
            { success := true,
              message := "已禁用定时任务:\n\nID: " ++ taskId ++
              "\n时间: " ++ task.time ++ "\n社区: " ++ task.community },
          tasks := setEnabledFirst tasks taskId false, wroteFile := true }

theorem find?_setEnabledFirst (tasks : List ScheduleTask) (taskId : String)
    (v : Bool) :
    (setEnabledFirst tasks taskId v).find? (fun t => t.id == taskId) =
      (tasks.find? (fun t => t.id == taskId)).map fun t =>
        { t with enabled := v } := by
  induction tasks with
  | nil => rfl
  | cons t rest ih =>
    cases hb : (t.id == taskId) with
    | false =>
      rw [setEnabledFirst]
      rw [if_neg (by simp [hb])]
      rw [List.find?_cons_of_neg _ (by simp [hb]),
        List.find?_cons_of_neg _ (by simp [hb]), ih]
    | true =>
      rw [setEnabledFirst]
      rw [if_pos (by simp [hb])]
      rw [List.find?_cons_of_pos _ (by simp [hb]),
        List.find?_cons_of_pos _ (by simp [hb])]
      rfl

/-- C10: enabling a task that is already enabled (and disabling one that is
already disabled) answers success with an "already in that state" message and
performs no write of the tasks file; applying the same toggle twice in a row
is an observable no-op on the persisted store — the second call leaves the
stored list exactly as the first left it and writes nothing. -/
theorem toggle_twice_is_noop (taskId : String) (tasks : List ScheduleTask) :
    (∀ task, tasks.find? (fun t => t.id == taskId) = some task → taskId ≠ "" →
      (task.enabled = true →
        enableScheduleTask taskId tasks =
          { result :=
              { success := true,
                message := "任务已经处于启用状态:\n\nID: " ++ taskId ++
                  "\n时间: " ++ task.time ++ "\n社区: " ++ task.community },
            tasks := tasks, wroteFile := false }) ∧
      (task.enabled = false →
        disableScheduleTask taskId tasks =
          { result :=
              { success := true,
                message := "任务已经处于禁用状态:\n\nID: " ++ taskId ++
                  "\n时间: " ++ task.time ++ "\n社区: " ++ task.community },
            tasks := tasks, wroteFile := false })) ∧
    ((enableScheduleTask taskId
        (enableScheduleTask taskId tasks).tasks).tasks =
      (enableScheduleTask taskId tasks).tasks ∧
     (enableScheduleTask taskId
        (enableScheduleTask taskId tasks).tasks).wroteFile = false) ∧
    ((disableScheduleTask taskId
        (disableScheduleTask taskId tasks).tasks).tasks =
      (disableScheduleTask taskId tasks).tasks ∧
     (disableScheduleTask taskId
        (disableScheduleTask taskId tasks).tasks).wroteFile = false) := by
  refine ⟨?_, ?_, ?_⟩
  · intro task hfind hne
    have hidb : (taskId == "") = false := by simpa using hne
    constructor
    · intro hen
      simp [enableScheduleTask, hidb, hfind, hen]
    · intro hen
      simp [disableScheduleTask, hidb, hfind, hen]
  · by_cases hid : (taskId == "") = true
    · simp [enableScheduleTask, hid]
    · have hidb : (taskId == "") = false := by simpa using hid
      cases hfind : tasks.find? (fun t => t.id == taskId) with
      | none => simp [enableScheduleTask, hidb, hfind]
      | some task =>
        by_cases hen : task.enabled = true
        · simp [enableScheduleTask, hidb, hfind, hen]
        · have hen2 : task.enabled = false := by simpa using hen
          have hf2 : (setEnabledFirst tasks taskId true).find?
              (fun t => t.id == taskId) =
              some { task with enabled := true } := by
            rw [find?_setEnabledFirst, hfind]
            rfl
          simp [enableScheduleTask, hidb, hfind, hen2, hf2]
  · by_cases hid : (taskId == "") = true
    · simp [disableScheduleTask, hid]
    · have hidb : (taskId == "") = false := by simpa using hid
      cases hfind : tasks.find? (fun t => t.id == taskId) with
      | none => simp [disableScheduleTask, hidb, hfind]
      | some task =>
        by_cases hen : task.enabled = true
        · have hf2 : (setEnabledFirst tasks taskId false).find?
              (fun t => t.id == taskId) =
              some { task with enabled := false } := by
            rw [find?_setEnabledFirst, hfind]
            rfl
          simp [disableScheduleTask, hidb, hfind, hen, hf2]
        · have hen2 : task.enabled = false := by simpa using hen
          simp [disableScheduleTask, hidb, hfind, hen2]

theorem toggle_twice_is_noop_witness :
    enableScheduleTask "task_demo" [demoTask] =
      { result :=
          { success := true,
            message := "任务已经处于启用状态:\n\nID: " ++ "task_demo" ++
              "\n时间: " ++ demoTask.time ++ "\n社区: " ++ demoTask.community },
        tasks := [demoTask], wroteFile := false } :=
  (((toggle_twice_is_noop "task_demo" [demoTask]).1 demoTask (by decide))
    (by decide)).1 (by decide)

/-- JS `endsWith`, computed on the character lists. -/
def strEndsWith (s p : String) : Bool :=
  p.data.isSuffixOf s.data

/-- JS `trim()` on a character list. -/
def trimChars (l : List Char) : List Char :=
  ((l.dropWhile Char.isWhitespace).reverse.dropWhile Char.isWhitespace).reverse

/-- JS `trim()`. -/
def strTrim (s : String) : String :=
  { data := trimChars s.data }

/-- One element of a JSON array literal, restricted to plain quoted strings
without escapes.  Modelled from the spec: this stands in for the JSON.parse
builtin the handler calls, on the array-of-strings shapes the scheduler
config uses. -/
def parseJsonStringElem (p : List Char) : Option String :=
  let q := trimChars p
  match q with
  | '"' :: rest =>
    match rest.getLast? with
    | some '"' =>
      if rest.length = 0 then none
      else
        let content := rest.dropLast
        if content.any (fun c => c == '"' || c == '\\') then none
        else some { data := content }
    | _ => none
  | _ => none

/-- A JSON array literal of plain quoted strings, e.g. `["x","y"]`.
Modelled from the spec: stands in for `JSON.parse` on the string-array
literals the scheduler config update accepts; other JSON shapes are outside
the modelled fragment and parse to `none` (a thrown error). -/
def parseJsonStringArray (s : String) : Option (List String) :=
  let inner := trimChars ((s.data.drop 1).dropLast)
  if inner.isEmpty then some []
  else
    let elems := (splitOnChar ',' inner).map parseJsonStringElem
    if elems.all Option.isSome then some (elems.filterMap id)
    else none

/-- A transport-level argument value: the scheduler update can receive a
plain string, an already-parsed array of strings, or some other JS value
(number, object, ...), which the handler only probes with
`typeof x === 'string'` and `Array.isArray`. -/
inductive ArgValue where
  | str (s : String)
  | strList (l : List String)
  | other
deriving Repr, DecidableEq

/-- The arguments `scheduler.update` receives.  The handler reads `interval`,
`ensLabels`, `userId` and `walletIndex`; `walletIndices` and `enabledChains`
are carried by the transport but never read by this handler. -/
structure UpdateSchedulerArgs where
  interval : Option String
  ensLabels : Option ArgValue
  userId : Option String
  walletIndex : Option String
  walletIndices : Option ArgValue
  enabledChains : Option ArgValue
deriving Repr, DecidableEq

/-- The `newConfig` object the handler accumulates and passes to
`scheduler.updateConfig`. -/
structure PartialSchedulerConfig where
  interval : Option Int := none
  ensLabels : Option (List String) := none
  userId : Option String := none
  walletIndex : Option Int := none
deriving Repr, DecidableEq

/-- The `ensLabels` normalization of `updateSchedulerConfig`: a string that
looks like `[...]` goes through JSON.parse (parse failure is caught and
reported), any other string is split on commas with each piece trimmed, an
array passes through, and any other value fails the `Array.isArray` check. -/
def normalizeEnsLabels (v : ArgValue) : Except String (List String) :=
  match v with
  | .str s =>
    if strStartsWith s "[" && strEndsWith s "]" then
      match parseJsonStringArray s with
      | some l => .ok l
      | none => .error "无法解析社区列表，请使用逗号分隔或JSON数组"
    else
      .ok ((splitOnChar ',' s.data).map fun part => strTrim { data := part })
  | .strList l => .ok l
  | .other => .error "社区列表必须是数组"

/-- `updateSchedulerConfig` of `scheduler-commands.ts`: validate `interval`
(a positive integer), normalize `ensLabels`, copy `userId`, validate
`walletIndex` (a non-negative integer), reject an update carrying none of
these, and otherwise hand the accumulated partial config to the scheduler
(whose own `updateConfig` always succeeds, its `saveConfig` catching
internally). -/
def updateSchedulerConfig (args : UpdateSchedulerArgs) :
    CommandResult × Option PartialSchedulerConfig :=
  let intervalStep : Except CommandResult (Option Int) :=
    match args.interval with
    | none => .ok none
    | some s =>
      match jsParseInt s with
      | some k =>
        if k < 1 then
          .error { success := false, message := "间隔必须是大于0的整数" }
        else .ok (some k)
      | none => .error { success := false, message := "间隔必须是大于0的整数" }
  match intervalStep with
  | .error r => (r, none)
  | .ok intervalVal =>
    let ensStep : Except CommandResult (Option (List String)) :=
      match args.ensLabels with
      | none => .ok none
      | some v =>
        match normalizeEnsLabels v with
        | .ok l => .ok (some l)
        | .error m => .error { success := false, message := m }
    match ensStep with
    | .error r => (r, none)
    | .ok ensVal =>
      let walletStep : Except CommandResult (Option Int) :=
        match args.walletIndex with
        | none => .ok none
        | some s =>
          match jsParseInt s with
          | some k =>
            if k < 0 then
              .error { success := false,
                       message := "钱包索引必须是大于等于0的整数" }
            else .ok (some k)
          | none =>
            .error { success := false,
                     message := "钱包索引必须是大于等于0的整数" }
      match walletStep with
      | .error r => (r, none)
      | .ok walletVal =>
        if intervalVal.isNone && ensVal.isNone && args.userId.isNone &&
            walletVal.isNone then
          ({ success := false, message := "未提供任何配置更新" }, none)
        else
          ({ success := true, message := "调度器配置已更新" },
           some { interval := intervalVal, ensLabels := ensVal,
                  userId := args.userId, walletIndex := walletVal })

/-- An update supplying only the two fields the handler never reads. -/
def arrayOnlyUpdateArgs : UpdateSchedulerArgs :=
  { interval := none, ensLabels := none, userId := none, walletIndex := none,
    walletIndices := some (ArgValue.str "1,2"),
    enabledChains := some (ArgValue.str "base,ethereum") }

/-- C8, counterexample: `updateSchedulerConfig` reads only `interval`,
`ensLabels`, `userId` and `walletIndex`.  Supplying `walletIndices` and
`enabledChains` as comma-separated strings does not normalize them to arrays
and does not merge anything: the whole update is rejected as carrying no
recognized field. -/
theorem updateSchedulerConfig_drops_walletIndices :
    updateSchedulerConfig arrayOnlyUpdateArgs =
      ({ success := false, message := "未提供任何配置更新" }, none) := rfl

/-- C8, amended: `interval`, when provided, must parse to a positive integer
or the update fails with no merge; `ensLabels` supplied as a comma-separated
string or as a JSON array literal of strings is normalized to an array (an
unparsable bracket literal or a non-string non-array value is rejected, and
an `ensLabels` rejection fails the whole update); `walletIndices` and
`enabledChains` are not read by this handler, so they neither get normalized
nor affect the outcome. -/
theorem updateSchedulerConfig_field_handling (args : UpdateSchedulerArgs) :
    (∀ s, args.interval = some s →
      (jsParseInt s = none ∨ ∃ k, jsParseInt s = some k ∧ k < 1) →
      updateSchedulerConfig args =
        ({ success := false, message := "间隔必须是大于0的整数" }, none)) ∧
    normalizeEnsLabels (ArgValue.str "a,b,c") = .ok ["a", "b", "c"] ∧
    normalizeEnsLabels (ArgValue.str "[\"x\",\"y\"]") = .ok ["x", "y"] ∧
    (∀ l, normalizeEnsLabels (ArgValue.strList l) = .ok l) ∧
    normalizeEnsLabels ArgValue.other = .error "社区列表必须是数组" ∧
    (∀ v m, args.interval = none → args.ensLabels = some v →
      normalizeEnsLabels v = .error m →
      updateSchedulerConfig args =
        ({ success := false, message := m }, none)) ∧
    (∀ v l, args.interval = none → args.ensLabels = some v →
      args.walletIndex = none → normalizeEnsLabels v = .ok l →
      updateSchedulerConfig args =
        ({ success := true, message := "调度器配置已更新" },
         some { interval := none, ensLabels := some l,
                userId := args.userId, walletIndex := none })) ∧
    (∀ v w, updateSchedulerConfig
        { args with walletIndices := v, enabledChains := w } =
      updateSchedulerConfig args) := by
  refine ⟨?_, rfl, rfl, fun l => rfl, rfl, ?_, ?_, ?_⟩
  · intro s hs hbad
    rcases hbad with hnone | ⟨k, hk, hlt⟩
    · simp [updateSchedulerConfig, hs, hnone]
    · simp [updateSchedulerConfig, hs, hk, hlt]
  · intro v m h1 h2 h3
    simp [updateSchedulerConfig, h1, h2, h3]
  · intro v l h1 h2 hw h3
    simp [updateSchedulerConfig, h1, h2, hw, h3]
  · intro v w
    rfl

theorem updateSchedulerConfig_field_handling_witness :
    updateSchedulerConfig
        { interval := none, ensLabels := some (ArgValue.str "a,b,c"),
          userId := none, walletIndex := none, walletIndices := none,
          enabledChains := none } =
      ({ success := true, message := "调度器配置已更新" },
       some { interval := none, ensLabels := some ["a", "b", "c"],
              userId := none, walletIndex := none }) :=
  (updateSchedulerConfig_field_handling
      { interval := none, ensLabels := some (ArgValue.str "a,b,c"),
        userId := none, walletIndex := none, walletIndices := none,
        enabledChains := none }).2.2.2.2.2.2.1
    (ArgValue.str "a,b,c") ["a", "b", "c"] rfl rfl rfl rfl

/-- The persisted runtime configuration of `SchedulerService`.  The optional
start/end window is held as epoch milliseconds. -/
structure SchedulerConfig where
  enabled : Bool
  interval : Nat
  enabledChains : List String
  ensLabels : List String
  walletIndices : List Nat
  cronExpression : String
  useRandomContent : Bool
  startTime : Option Nat
  endTime : Option Nat
deriving Repr, DecidableEq

/-- The `SchedulerStatus` record of the service; `lastRunResult` is reduced
to its success flag. -/
structure SchedulerStatus where
  isRunning : Bool
  nextRunTime : Option Nat
  lastRunTime : Option Nat
  lastRunResult : Option Bool
deriving Repr, DecidableEq

/-- Observable state of a `SchedulerService` instance: the in-memory config,
the copy `saveConfig` keeps in the admin settings blob, whether the interval
timer is armed, and the status record. -/
structure SchedulerState where
  config : SchedulerConfig
  persisted : SchedulerConfig
  timerActive : Bool
  status : SchedulerStatus
deriving Repr, DecidableEq

/-- A `new Date()` read at a tick: epoch milliseconds for the window
comparisons plus the broken-down components the cron matcher consumes. -/
structure JsDate where
  epochMs : Nat
  cron : CronParser.CronTime
deriving Repr, DecidableEq

/-- `SchedulerService.stop`: set `enabled = false`, persist the config
(`saveConfig`), clear the timer, and mark the status stopped. -/
def SchedulerService.stop (s : SchedulerState) : SchedulerState :=
  let cfg := { s.config with enabled := false }
  { config := cfg, persisted := cfg, timerActive := false,
    status := { s.status with isRunning := false, nextRunTime := none } }

/-- `updateNextRunTime`: the advisory "next whole minute", not derived from
the cron expression. -/
def nextWholeMinute (epochMs : Nat) : Nat :=
  (epochMs / 60000 + 1) * 60000

/-- State change of `updateNextRunTime`. -/
def SchedulerService.updateNextRunTime (s : SchedulerState) (now : JsDate) :
    SchedulerState :=
  { s with status :=
      { s.status with nextRunTime := some (nextWholeMinute now.epochMs) } }

/-- `SchedulerService.runSchedule`, reduced to its state bookkeeping: the
publish loop over `ensLabels × enabledChains × walletIndices` delegates to
external collaborators with every combination caught, so its effect on the
scheduler state is the run timestamps and the result flag. -/
def SchedulerService.runSchedule (s : SchedulerState) (now : JsDate) :
    SchedulerState :=
  if !s.config.enabled then s
  else
    { s with status :=
        { s.status with lastRunTime := some now.epochMs,
                        lastRunResult := some true } }

/-- `SchedulerService.checkSchedule`: do nothing when disabled; skip while
before `startTime`; stop (and persist `enabled=false`) once past `endTime`;
otherwise run the schedule when the cron expression matches, updating the
advisory next-run time.  The boolean reports whether the publish sequence
was triggered on this tick. -/
def SchedulerService.checkSchedule (s : SchedulerState) (now : JsDate) :
    SchedulerState × Bool :=
  if !s.config.enabled then (s, false)
  else if (match s.config.startTime with
           | some st => decide (now.epochMs < st)
           | none => false) then (s, false)
  else if (match s.config.endTime with
           | some et => decide (et < now.epochMs)
           | none => false) then
    (SchedulerService.stop s, false)
  else if CronParser.isTimeMatching s.config.cronExpression now.cron then
    (SchedulerService.updateNextRunTime
       (SchedulerService.runSchedule s now) now, true)
  else (SchedulerService.updateNextRunTime s now, false)

/-- A sequence of ticks of the 60-second interval timer; the boolean records
whether any tick triggered a publish. -/
def SchedulerService.runTicks (s : SchedulerState) (ticks : List JsDate) :
    SchedulerState × Bool :=
  ticks.foldl
    (fun acc t =>
      let r := SchedulerService.checkSchedule acc.1 t
      (r.1, acc.2 || r.2))
    (s, false)

theorem checkSchedule_disabled (s : SchedulerState)
    (h : s.config.enabled = false) (now : JsDate) :
    SchedulerService.checkSchedule s now = (s, false) := by
  simp [SchedulerService.checkSchedule, h]

theorem runTicks_disabled (s : SchedulerState)
    (h : s.config.enabled = false) (ticks : List JsDate) :
    SchedulerService.runTicks s ticks = (s, false) := by
  unfold SchedulerService.runTicks
  suffices hgen : ∀ (b : Bool) (ts : List JsDate),
      ts.foldl
        (fun acc t =>
          let r := SchedulerService.checkSchedule acc.1 t
          (r.1, acc.2 || r.2))
        (s, b) = (s, b) by
    exact hgen false ticks
  intro b ts
  induction ts generalizing b with
  | nil => rfl
  | cons t ts ih =>
    simp only [List.foldl_cons, checkSchedule_disabled s h t]
    simpa using ih b

/-- A running scheduler whose configured window is contradictory: the start
time lies in the future while the end time already passed. -/
def windowClashState : SchedulerState :=
  { config :=
      { enabled := true, interval := 3600, enabledChains := [],
        ensLabels := [], walletIndices := [], cronExpression := "0 * * * *",
        useRandomContent := true, startTime := some 200000,
        endTime := some 50000 },
    persisted :=
      { enabled := true, interval := 3600, enabledChains := [],
        ensLabels := [], walletIndices := [], cronExpression := "0 * * * *",
        useRandomContent := true, startTime := some 200000,
        endTime := some 50000 },
    timerActive := true,
    status :=
      { isRunning := true, nextRunTime := none, lastRunTime := none,
        lastRunResult := none } }

/-- The tick at epoch 100000 ms used against `windowClashState`. -/
def clashTick : JsDate :=
  { epochMs := 100000,
    cron := { minute := 0, hour := 0, dayOfMonth := 1, month := 1,
              dayOfWeekRaw := 4 } }

/-- C9, counterexample: with the scheduler enabled, `endTime = 50000` in the
past of the tick at 100000, the claim requires a transition to Stopped on
that tick; but because `startTime = 200000` is still in the future, the
start-time check returns first and the tick leaves the scheduler entirely
unchanged — still enabled, timer armed, nothing persisted. -/
theorem checkSchedule_end_shadowed_by_start :
    windowClashState.config.enabled = true ∧
    windowClashState.config.endTime = some 50000 ∧
    50000 < clashTick.epochMs ∧
    SchedulerService.checkSchedule windowClashState clashTick =
      (windowClashState, false) ∧
    windowClashState.timerActive = true ∧
    windowClashState.persisted.enabled = true := by
  refine ⟨rfl, rfl, by decide, rfl, rfl, rfl⟩

/-- C9, amended: on a tick of an enabled scheduler, if `startTime` is set
and the tick is before it, nothing is published and the state is unchanged;
if `endTime` is set, the tick is after it, and the start gate does not
apply (no `startTime`, or the tick is at or past it), the scheduler
transitions to Stopped on that tick — timer cleared, `enabled=false`
persisted, `isRunning` false, no publish — and no publish happens on any
sequence of later ticks of the stopped scheduler. -/
theorem checkSchedule_window (s : SchedulerState) (now : JsDate)
    (hen : s.config.enabled = true) :
    (∀ st, s.config.startTime = some st → now.epochMs < st →
      SchedulerService.checkSchedule s now = (s, false)) ∧
    (∀ et, s.config.endTime = some et → et < now.epochMs →
      (s.config.startTime = none ∨
        ∃ st, s.config.startTime = some st ∧ st ≤ now.epochMs) →
      SchedulerService.checkSchedule s now =
        (SchedulerService.stop s, false) ∧
      (SchedulerService.stop s).timerActive = false ∧
      (SchedulerService.stop s).persisted.enabled = false ∧
      (SchedulerService.stop s).config.enabled = false ∧
      (SchedulerService.stop s).status.isRunning = false ∧
      ∀ ticks, SchedulerService.runTicks (SchedulerService.stop s) ticks =
        (SchedulerService.stop s, false)) := by
  constructor
  · intro st h1 h2
    simp [SchedulerService.checkSchedule, hen, h1, h2]
  · intro et h1 h2 h3
    have hstart : (match s.config.startTime with
        | some st => decide (now.epochMs < st)
        | none => false) = false := by
      rcases h3 with h3 | ⟨st, h3, h4⟩
      · rw [h3]
      · rw [h3]
        simpa using by omega
    refine ⟨?_, rfl, rfl, rfl, rfl, ?_⟩
    · simp [SchedulerService.checkSchedule, hen, hstart, h1, h2]
    · exact fun ticks =>
        runTicks_disabled (SchedulerService.stop s) rfl ticks

theorem checkSchedule_window_witness :
    SchedulerService.checkSchedule
        { windowClashState with
            config := { windowClashState.config with startTime := none } }
        clashTick =
      (SchedulerService.stop
        { windowClashState with
            config := { windowClashState.config with startTime := none } },
       false) ∧
    (SchedulerService.stop
      { windowClashState with
          config := { windowClashState.config with startTime := none } }).persisted.enabled =
      false :=
  have h := (checkSchedule_window
      { windowClashState with
          config := { windowClashState.config with startTime := none } }
      clashTick rfl).2 50000 rfl (by decide) (Or.inl rfl)
  ⟨h.1, h.2.2.1⟩

end NpPostBot
